import Mathlib

/-!
Verification of the simple client-side chat engine (`src/app.js`).

The development shallowly embeds the program's logic:
* the password digest pipeline (`hashPassword`): UTF-8 encoding, SHA-256,
  and the JS rendering `b.toString(16).padStart(2,'0')` joined over the bytes;
* the typed service layer extracted from the button handlers
  (`register`, `authenticate`, `send`) and the conversation view
  (`conversation`), over an explicit `ChatState`;
* the persistent-store layer (`loadUsers`, `loadMessages`,
  `saveCurrentUser`, `loadCurrentUser`) over a JSON value model, where a
  storage slot is `none` (key absent), `some none` (text present but not
  valid JSON, so `JSON.parse` throws), or `some (some v)` (text parses to
  the JSON value `v`).

Timestamps (`new Date().toISOString()`) are modelled as abstract instants
(`Nat`): the source only ever compares them through `new Date(ts)`, which is
monotone in the instant.
-/

/-! ## Hex rendering: `b.toString(16).padStart(2,'0')` -/

/-- One base-16 digit character, lowercase, as produced by JS `Number.toString(16)`. -/
def hexDigit (n : Nat) : Char :=
  if n < 10 then Char.ofNat (48 + n) else Char.ofNat (87 + n)

/-- Accumulator loop of base-16 rendering (`Number.toString(16)` for naturals).
The first argument is fuel making the recursion structural; `natToHex` supplies
enough fuel that it is never exhausted. -/
def natToHexAux : Nat → Nat → List Char → List Char
  | 0, _, acc => acc
  | fuel + 1, n, acc =>
      if n < 16 then hexDigit n :: acc
      else natToHexAux fuel (n / 16) (hexDigit (n % 16) :: acc)

/-- JS `Number.toString(16)` on a natural number: lowercase hex, no padding. -/
def natToHex (n : Nat) : String := String.mk (natToHexAux (n + 1) n [])

/-- JS `String.prototype.padStart(2, '0')`: left-pad with the digit zero to length 2. -/
def padStart2 (s : String) : String :=
  if s.length ≥ 2 then s else if s.length = 1 then "0" ++ s else "00"

/-! ## UTF-8 encoding (`TextEncoder.encode`) -/

/-- UTF-8 encoding of one Unicode scalar value, as a list of bytes. -/
def utf8EncodeScalar (c : Nat) : List Nat :=
  if c < 0x80 then [c]
  else if c < 0x800 then
    [0xC0 ||| (c >>> 6), 0x80 ||| (c &&& 0x3F)]
  else if c < 0x10000 then
    [0xE0 ||| (c >>> 12), 0x80 ||| ((c >>> 6) &&& 0x3F), 0x80 ||| (c &&& 0x3F)]
  else
    [0xF0 ||| (c >>> 18), 0x80 ||| ((c >>> 12) &&& 0x3F),
     0x80 ||| ((c >>> 6) &&& 0x3F), 0x80 ||| (c &&& 0x3F)]

/-- UTF-8 encoding of a string (`new TextEncoder().encode(s)`), as a byte list. -/
def utf8Encode (s : String) : List Nat :=
  s.data.flatMap (fun c => utf8EncodeScalar c.toNat)

/-! ## SHA-256 (`crypto.subtle.digest('SHA-256', data)`), FIPS 180-4 -/

/-- Modulus for 32-bit words. -/
def M32 : Nat := 4294967296

/-- Addition modulo 2^32. -/
def add32 (a b : Nat) : Nat := (a + b) % M32

/-- Right rotation of a 32-bit word by `n` places. -/
def rotr32 (n x : Nat) : Nat := ((x >>> n) ||| (x <<< (32 - n))) % M32

/-- SHA-256 big sigma-0. -/
def bSig0 (x : Nat) : Nat := rotr32 2 x ^^^ rotr32 13 x ^^^ rotr32 22 x

/-- SHA-256 big sigma-1. -/
def bSig1 (x : Nat) : Nat := rotr32 6 x ^^^ rotr32 11 x ^^^ rotr32 25 x

/-- SHA-256 small sigma-0. -/
def sSig0 (x : Nat) : Nat := rotr32 7 x ^^^ rotr32 18 x ^^^ (x >>> 3)

/-- SHA-256 small sigma-1. -/
def sSig1 (x : Nat) : Nat := rotr32 17 x ^^^ rotr32 19 x ^^^ (x >>> 10)

/-- SHA-256 choice function (the complement is taken on 32 bits). -/
def chF (x y z : Nat) : Nat := (x &&& y) ^^^ ((x ^^^ 4294967295) &&& z)

/-- SHA-256 majority function. -/
def majF (x y z : Nat) : Nat := (x &&& y) ^^^ (x &&& z) ^^^ (y &&& z)

/-- SHA-256 round constants. -/
def sha256K : List Nat :=
  [1116352408, 1899447441, 3049323471, 3921009573, 961987163,
   1508970993, 2453635748, 2870763221, 3624381080, 310598401,
   607225278, 1426881987, 1925078388, 2162078206, 2614888103,
   3248222580, 3835390401, 4022224774, 264347078, 604807628,
   770255983, 1249150122, 1555081692, 1996064986, 2554220882,
   2821834349, 2952996808, 3210313671, 3336571891, 3584528711,
   113926993, 338241895, 666307205, 773529912, 1294757372,
   1396182291, 1695183700, 1986661051, 2177026350, 2456956037,
   2730485921, 2820302411, 3259730800, 3345764771, 3516065817,
   3600352804, 4094571909, 275423344, 430227734, 506948616,
   659060556, 883997877, 958139571, 1322822218, 1537002063,
   1747873779, 1955562222, 2024104815, 2227730452, 2361852424,
   2428436474, 2756734187, 3204031479, 3329325298]

/-- The eight SHA-256 working variables / hash words. -/
structure H8 where
  a : Nat
  b : Nat
  c : Nat
  d : Nat
  e : Nat
  f : Nat
  g : Nat
  h : Nat

/-- SHA-256 initial hash value. -/
def sha256Init : H8 :=
  ⟨1779033703, 3144134277, 1013904242, 2773480762,
   1359893119, 2600822924, 528734635, 1541459225⟩

/-- Pack bytes into big-endian 32-bit words, four bytes per word. -/
def bytesToWords : List Nat → List Nat
  | b0 :: b1 :: b2 :: b3 :: rest =>
      ((b0 <<< 24) ||| (b1 <<< 16) ||| (b2 <<< 8) ||| b3) :: bytesToWords rest
  | _ => []

/-- Extend the 16-word message schedule by `rounds` further words
(`w[t] = s1(w[t-2]) + w[t-7] + s0(w[t-15]) + w[t-16]`). -/
def extendSchedule (w : List Nat) : Nat → List Nat
  | 0 => w
  | r + 1 =>
      extendSchedule
        (w ++ [add32 (add32 (sSig1 (w.getD (w.length - 2) 0)) (w.getD (w.length - 7) 0))
                 (add32 (sSig0 (w.getD (w.length - 15) 0)) (w.getD (w.length - 16) 0))]) r

/-- One SHA-256 compression round for schedule word `w` and constant `k`. -/
def sha256Round (s : H8) (wk : Nat × Nat) : H8 :=
  let t1 := add32 s.h (add32 (bSig1 s.e) (add32 (chF s.e s.f s.g) (add32 wk.2 wk.1)))
  let t2 := add32 (bSig0 s.a) (majF s.a s.b s.c)
  ⟨add32 t1 t2, s.a, s.b, s.c, add32 s.d t1, s.e, s.f, s.g⟩

/-- Compress one 64-byte block into the running hash. -/
def sha256Block (hsh : H8) (block : List Nat) : H8 :=
  let w := extendSchedule (bytesToWords block) 48
  let s := (List.zip w sha256K).foldl sha256Round hsh
  ⟨add32 hsh.a s.a, add32 hsh.b s.b, add32 hsh.c s.c, add32 hsh.d s.d,
   add32 hsh.e s.e, add32 hsh.f s.f, add32 hsh.g s.g, add32 hsh.h s.h⟩

/-- Fold the compression function over consecutive 64-byte blocks. The fuel
argument makes the recursion structural; `sha256Blocks` supplies enough fuel
(one unit per remaining byte) that it is never exhausted. -/
def sha256BlocksAux (hsh : H8) (bytes : List Nat) : Nat → H8
  | 0 => hsh
  | fuel + 1 =>
      if bytes.isEmpty then hsh
      else sha256BlocksAux (sha256Block hsh (bytes.take 64)) (bytes.drop 64) fuel

/-- Fold the compression function over all 64-byte blocks of the padded input. -/
def sha256Blocks (hsh : H8) (bytes : List Nat) : H8 :=
  sha256BlocksAux hsh bytes bytes.length

/-- SHA-256 padding: append `0x80`, zeros, and the 64-bit big-endian bit length. -/
def sha256Pad (msg : List Nat) : List Nat :=
  let bitLen := msg.length * 8
  msg ++ [0x80] ++ List.replicate ((119 - msg.length % 64) % 64) 0 ++
    (List.range 8).map (fun i => (bitLen >>> ((7 - i) * 8)) &&& 255)

/-- SHA-256 digest of a byte sequence, as the list of 32 digest bytes. -/
def sha256 (msg : List Nat) : List Nat :=
  let r := sha256Blocks sha256Init (sha256Pad msg)
  [r.a, r.b, r.c, r.d, r.e, r.f, r.g, r.h].flatMap
    (fun w => [(w >>> 24) &&& 255, (w >>> 16) &&& 255, (w >>> 8) &&& 255, w &&& 255])

/-- Password digest, as in `hashPassword` of `src/app.js`: UTF-8 encode, SHA-256,
render each byte with `b.toString(16).padStart(2,'0')` and join. -/
def hashPassword (password : String) : String :=
  String.join ((sha256 (utf8Encode password)).map (fun b => padStart2 (natToHex b)))

/-! ## Typed service layer (the button handlers of `src/app.js`)

The registration handler (`btnRegister`), login handler (`btnLogin`) and send
handler (`btnSend`) are embedded as pure functions over an explicit state.
Errors are the distinct user-facing failure messages of each handler; on any
error the handler returns before `saveUsers` / `saveMessages`, so only the
success branch produces a new state. -/

/-- Whitespace as stripped by JS `String.prototype.trim` (the ASCII part; JS
also strips some further Unicode space characters, which never occur in the
data at issue). -/
def isWS (c : Char) : Bool :=
  (c == ' ') || (c == '\t') || (c == '\n') || (c == '\r')

/-- JS `String.prototype.trim`: drop leading and trailing whitespace. -/
def jsTrim (s : String) : String :=
  String.mk (((s.data.dropWhile isWS).reverse.dropWhile isWS).reverse)

/-- Lowercasing of one character as by JS `toLowerCase` (the ASCII part; the
stored data at issue is ASCII). -/
def charLower (c : Char) : Char :=
  if 'A' ≤ c ∧ c ≤ 'Z' then Char.ofNat (c.toNat + 32) else c

/-- JS `String.prototype.toLowerCase`. -/
def jsToLower (s : String) : String := String.mk (s.data.map charLower)

instance {ε α : Type} [DecidableEq ε] [DecidableEq α] : DecidableEq (Except ε α) := fun x y =>
  match x, y with
  | .error e1, .error e2 =>
      match decEq e1 e2 with
      | isTrue h => isTrue (h ▸ rfl)
      | isFalse h => isFalse (fun c => h (Except.error.inj c))
  | .error _, .ok _ => isFalse (fun c => Except.noConfusion c)
  | .ok _, .error _ => isFalse (fun c => Except.noConfusion c)
  | .ok a1, .ok a2 =>
      match decEq a1 a2 with
      | isTrue h => isTrue (h ▸ rfl)
      | isFalse h => isFalse (fun c => h (Except.ok.inj c))

/-- User record: `{ username, passwordHash, createdAt }` of `src/app.js`. -/
structure User where
  username : String
  passwordHash : String
  createdAt : Nat
deriving DecidableEq

/-- Message record: `{ from, to, text, ts }` of `src/app.js`. -/
structure Message where
  «from» : String
  «to» : String
  text : String
  ts : Nat
deriving DecidableEq

/-- The two persisted collections (`simplechat_users`, `simplechat_messages`). -/
structure ChatState where
  users : List User
  msgs : List Message
deriving DecidableEq

/-- Empty store: both collections absent, loaded as `[]`. -/
def initState : ChatState := { users := [], msgs := [] }

/-- Failure outcomes of the registration handler. -/
inductive RegErr where
  | InvalidInput
  | DuplicateUsername
deriving DecidableEq

/-- Failure outcomes of the login handler. -/
inductive AuthErr where
  | MissingInput
  | UserNotFound
  | WrongPassword
deriving DecidableEq

/-- Failure outcomes of the send handler (for a logged-in sender). -/
inductive SendErr where
  | NoRecipient
  | SelfMessage
  | EmptyText
  | UnknownRecipient
deriving DecidableEq

/-- Registration (`btnRegister` handler): trim the username (the password is
used as typed, untrimmed), reject empty inputs, reject a case-insensitive
duplicate, otherwise hash the password and append the new record. -/
def register (st : ChatState) (usernameRaw password : String) (now : Nat) :
    Except RegErr (ChatState × User) :=
  let username := jsTrim usernameRaw
  if username = "" ∨ password = "" then .error .InvalidInput
  else if st.users.any (fun u => jsToLower u.username == jsToLower username) then
    .error .DuplicateUsername
  else
    let u : User := { username := username, passwordHash := hashPassword password, createdAt := now }
    .ok ({ st with users := st.users ++ [u] }, u)

/-- Authentication (`btnLogin` handler): trim the username, reject empty
inputs, look up the first case-insensitive username match, compare the digest
of the supplied password with the stored hash, and return the stored record. -/
def authenticate (st : ChatState) (usernameRaw password : String) :
    Except AuthErr User :=
  let username := jsTrim usernameRaw
  if username = "" ∨ password = "" then .error .MissingInput
  else
    match st.users.find? (fun u => jsToLower u.username == jsToLower username) with
    | none => .error .UserNotFound
    | some user =>
        if hashPassword password ≠ user.passwordHash then .error .WrongPassword
        else .ok user

/-- Sending (`btnSend` handler, for a logged-in sender `«from»`): in handler
order, reject an empty recipient, a self-message, an empty trimmed text, and a
recipient absent from the directory under exact comparison; otherwise append
the message record. -/
def send (st : ChatState) («from» «to» textRaw : String) (now : Nat) :
    Except SendErr (ChatState × Message) :=
  let text := jsTrim textRaw
  if «to» = "" then .error .NoRecipient
  else if «to» = «from» then .error .SelfMessage
  else if text = "" then .error .EmptyText
  else if !(st.users.any (fun u => u.username == «to»)) then .error .UnknownRecipient
  else
    let m : Message := { «from» := «from», «to» := «to», text := text, ts := now }
    .ok ({ st with msgs := st.msgs ++ [m] }, m)

/-- State after a registration attempt (the handler persists only on success). -/
def regStep (st : ChatState) (usernameRaw password : String) (now : Nat) : ChatState :=
  match register st usernameRaw password now with
  | .ok (st', _) => st'
  | .error _ => st

/-- State after a send attempt (the handler persists only on success). -/
def sendStep (st : ChatState) («from» «to» textRaw : String) (now : Nat) : ChatState :=
  match send st «from» «to» textRaw now with
  | .ok (st', _) => st'
  | .error _ => st

/-- A state-changing operation of the engine (the two handlers that write the
collections; login and logout do not touch them). -/
inductive Op where
  | reg (usernameRaw password : String) (now : Nat)
  | snd («from» «to» textRaw : String) (now : Nat)

/-- Apply one operation, keeping the state unchanged when the handler fails. -/
def applyOp (st : ChatState) : Op → ChatState
  | .reg u p t => regStep st u p t
  | .snd f dst tx t => sendStep st f dst tx t

/-- Run a sequence of operations from a starting state. -/
def runOps (st : ChatState) (ops : List Op) : ChatState := ops.foldl applyOp st

/-- Membership test of the filter in `renderMessages`: the message's
`{from,to}` pair is `{userA,userB}` in one of the two directions. -/
def convFilter (userA userB : String) (m : Message) : Bool :=
  (m.«from» == userA && m.«to» == userB) || (m.«from» == userB && m.«to» == userA)

/-- Comparator of `renderMessages`: `new Date(a.ts) - new Date(b.ts)` orders by
the timestamp instant; JS `Array.prototype.sort` is a stable sort. -/
def msgLE (m1 m2 : Message) : Bool := m1.ts ≤ m2.ts

/-- Conversation view (`renderMessages` of `src/app.js`): filter the message
log to the two participants and stably sort by timestamp. -/
def conversation (msgs : List Message) (userA userB : String) : List Message :=
  (msgs.filter (convFilter userA userB)).mergeSort msgLE

/-! ## Persistent-store layer over a JSON value model

A storage slot (`localStorage` key) is modelled as `Option (Option JValue)`:
`none` means the key is absent (`getItem` returns `null`), `some none` means
text is present but is not valid JSON (`JSON.parse` throws), and
`some (some v)` means the text parses to the JSON value `v`.  `JSON.stringify`
of a value always produces text parsing back to that value, so a write of `v`
stores `some (some v)`. -/

/-- JSON values (numbers are modelled as integers; the stored records never
use fractional numbers). -/
inductive JValue where
  | jnull : JValue
  | jbool : Bool → JValue
  | jnum : Int → JValue
  | jstr : String → JValue
  | jarr : List JValue → JValue
  | jobj : List (String × JValue) → JValue

/-- The three persistence keys of `src/app.js`. -/
structure StoreState where
  usersRaw : Option (Option JValue)
  msgsRaw : Option (Option JValue)
  sessionRaw : Option (Option JValue)

/-- Is the value a JSON array? -/
def isJArr : JValue → Bool
  | .jarr _ => true
  | _ => false

/-- JS truthiness of a JSON value (`null`, `false`, `0`, `""` are falsy). -/
def jTruthy : JValue → Bool
  | .jnull => false
  | .jbool b => b
  | .jnum n => n != 0
  | .jstr s => s != ""
  | .jarr _ => true
  | .jobj _ => true

/-- Reading of the `username` property of a parsed session value. -/
def jUsername : JValue → Option String
  | .jobj fields =>
      match fields.lookup "username" with
      | some (.jstr s) => some s
      | _ => none
  | _ => none

/-- The session object `{ username: u }` stored by the login handler
(`currentUser = { username: user.username }`). -/
def encodeCurrentUser (username : String) : JValue :=
  .jobj [("username", .jstr username)]

/-- Loading of `simplechat_users`:
`JSON.parse(localStorage.getItem(LS_USERS_KEY) || '[]')` inside `try`, with
`catch` returning `[]`. An absent key gives `null`, which is replaced by
`'[]'`; unparseable text throws and is caught. -/
def loadUsers (st : StoreState) : JValue :=
  match st.usersRaw with
  | none => .jarr []
  | some none => .jarr []
  | some (some v) => v

/-- Loading of `simplechat_messages`, same shape as `loadUsers`. -/
def loadMessages (st : StoreState) : JValue :=
  match st.msgsRaw with
  | none => .jarr []
  | some none => .jarr []
  | some (some v) => v

/-- Saving of the session (`saveCurrentUser` of `src/app.js`): a truthy value
is stringified and stored, a falsy one (the handlers pass `null`) removes the
key. -/
def saveCurrentUser (v : JValue) (st : StoreState) : StoreState :=
  if jTruthy v then { st with sessionRaw := some (some v) }
  else { st with sessionRaw := none }

/-- Loading of the session (`loadCurrentUser` of `src/app.js`):
`JSON.parse(getItem(...))` inside `try`/`catch e { return null }`. An absent
key gives `JSON.parse(null)`, which coerces to the text `"null"` and parses to
the JSON `null`; unparseable text throws and the handler returns `null`. -/
def loadCurrentUser (st : StoreState) : JValue :=
  match st.sessionRaw with
  | none => .jnull
  | some none => .jnull
  | some (some v) => v

/-- Invariant maintained by the two writing handlers: usernames are pairwise
distinct case-insensitively, usernames are nonempty, and no stored message is
a self-message. -/
def GoodState (st : ChatState) : Prop :=
  st.users.Pairwise (fun u1 u2 => jsToLower u1.username ≠ jsToLower u2.username) ∧
  (∀ u ∈ st.users, u.username ≠ "") ∧
  (∀ m ∈ st.msgs, m.«from» ≠ m.«to»)

/-- A directory holding a user whose name differs from `"alice"` only in
letter case, for exercising the recipient check of the send handler. -/
def c10state : ChatState :=
  { users := [⟨"Alice", "h", 0⟩, ⟨"Bob", "h", 0⟩], msgs := [] }

/-! ## Helper lemmas -/

theorem register_ok_iff {st st' : ChatState} {un pw : String} {t : Nat} {r : User} :
    register st un pw t = .ok (st', r) ↔
      jsTrim un ≠ "" ∧ pw ≠ "" ∧
      st.users.any (fun u => jsToLower u.username == jsToLower (jsTrim un)) = false ∧
      r = { username := jsTrim un, passwordHash := hashPassword pw, createdAt := t } ∧
      st' = { st with users := st.users ++ [r] } := by
  constructor
  · intro h
    simp only [register] at h
    split_ifs at h with h1 h2
    push_neg at h1
    simp only [Except.ok.injEq, Prod.mk.injEq] at h
    exact ⟨h1.1, h1.2, by simpa using h2, h.2.symm, by rw [← h.1, ← h.2]⟩
  · rintro ⟨h1, h2, h3, rfl, rfl⟩
    simp only [register]
    rw [if_neg (by tauto), if_neg (by simp [h3])]

theorem send_ok_iff {st st' : ChatState} {f dst tx : String} {t : Nat} {m : Message} :
    send st f dst tx t = .ok (st', m) ↔
      dst ≠ "" ∧ dst ≠ f ∧ jsTrim tx ≠ "" ∧
      st.users.any (fun u => u.username == dst) = true ∧
      m = { «from» := f, «to» := dst, text := jsTrim tx, ts := t } ∧
      st' = { st with msgs := st.msgs ++ [m] } := by
  constructor
  · intro h
    simp only [send] at h
    split_ifs at h with h1 h2 h3 h4
    simp only [Bool.not_eq_true', Bool.not_eq_false] at h4
    simp only [Except.ok.injEq, Prod.mk.injEq] at h
    exact ⟨h1, h2, h3, h4, h.2.symm, by rw [← h.1, ← h.2]⟩
  · rintro ⟨h1, h2, h3, h4, rfl, rfl⟩
    simp only [send]
    rw [if_neg h1, if_neg h2, if_neg h3, if_neg (by simp [h4])]

theorem regStep_of_error {st : ChatState} {un pw : String} {t : Nat} {e : RegErr}
    (h : register st un pw t = .error e) : regStep st un pw t = st := by
  simp [regStep, h]

theorem sendStep_of_error {st : ChatState} {f dst tx : String} {t : Nat} {e : SendErr}
    (h : send st f dst tx t = .error e) : sendStep st f dst tx t = st := by
  simp [sendStep, h]

theorem sendStep_users (st : ChatState) (f dst tx : String) (t : Nat) :
    (sendStep st f dst tx t).users = st.users := by
  rcases h : send st f dst tx t with e | ⟨st', m⟩
  · rw [sendStep_of_error h]
  · obtain ⟨-, -, -, -, -, rfl⟩ := send_ok_iff.mp h
    simp [sendStep, h]

theorem regStep_msgs (st : ChatState) (un pw : String) (t : Nat) :
    (regStep st un pw t).msgs = st.msgs := by
  rcases h : register st un pw t with e | ⟨st', r⟩
  · rw [regStep_of_error h]
  · obtain ⟨-, -, -, -, rfl⟩ := register_ok_iff.mp h
    simp [regStep, h]

theorem goodState_applyOp {st : ChatState} (op : Op) (h : GoodState st) :
    GoodState (applyOp st op) := by
  obtain ⟨hp, hn, hm⟩ := h
  cases op with
  | reg un pw t =>
    rcases hreg : register st un pw t with e | ⟨st', r⟩
    · simpa [applyOp, regStep_of_error hreg] using ⟨hp, hn, hm⟩
    · obtain ⟨h1, h2, h3, hr, hst⟩ := register_ok_iff.mp hreg
      subst hr hst
      simp only [applyOp, regStep, hreg, GoodState]
      refine ⟨List.pairwise_append.mpr ⟨hp, by simp, ?_⟩, ?_, hm⟩
      · intro a ha b hb
        simp only [List.mem_singleton] at hb
        subst hb
        have := (List.any_eq_false.mp h3) a ha
        simpa using this
      · intro u hu
        rcases List.mem_append.mp hu with h' | h'
        · exact hn u h'
        · simp only [List.mem_singleton] at h'
          subst h'
          exact h1
  | snd f dst tx t =>
    rcases hsnd : send st f dst tx t with e | ⟨st', m⟩
    · simpa [applyOp, sendStep_of_error hsnd] using ⟨hp, hn, hm⟩
    · obtain ⟨h1, h2, h3, h4, hmm, hst⟩ := send_ok_iff.mp hsnd
      subst hmm hst
      simp only [applyOp, sendStep, hsnd, GoodState]
      refine ⟨hp, hn, ?_⟩
      intro m' hm'
      rcases List.mem_append.mp hm' with h' | h'
      · exact hm m' h'
      · simp only [List.mem_singleton] at h'
        subst h'
        exact fun c => h2 c.symm

theorem goodState_runOps (ops : List Op) {st : ChatState} (h : GoodState st) :
    GoodState (runOps st ops) := by
  induction ops generalizing st with
  | nil => simpa [runOps] using h
  | cons op ops ih =>
    simp only [runOps, List.foldl_cons]
    exact ih (goodState_applyOp op h)

theorem goodState_init : GoodState initState :=
  ⟨List.Pairwise.nil, by simp [initState], by simp [initState]⟩

/-! ## Claims -/

/-- C2: registering a username that matches an existing record
case-insensitively fails with `DuplicateUsername` and leaves the state (hence
the directory's size and contents) unchanged; and after any sequence of
operations from the empty store, no two records have usernames equal under
case-insensitive comparison. (The inputs are assumed to pass the handler's
preceding empty-input check.) -/
theorem c2_duplicate_username :
    (∀ (st : ChatState) (un pw : String) (t : Nat) (u : User),
      u ∈ st.users → jsToLower u.username = jsToLower (jsTrim un) →
      jsTrim un ≠ "" → pw ≠ "" →
      register st un pw t = .error .DuplicateUsername ∧ regStep st un pw t = st) ∧
    (∀ ops : List Op,
      (runOps initState ops).users.Pairwise
        (fun u1 u2 => jsToLower u1.username ≠ jsToLower u2.username)) := by
  constructor
  · intro st un pw t u hu heq h1 h2
    have hdup : register st un pw t = .error .DuplicateUsername := by
      simp only [register]
      rw [if_neg (by tauto), if_pos (List.any_eq_true.mpr ⟨u, hu, by simpa using heq⟩)]
    exact ⟨hdup, regStep_of_error hdup⟩
  · intro ops
    exact (goodState_runOps ops goodState_init).1

/-- C2 witness: registering `"BOB"` over an existing `"Bob"` fails with
`DuplicateUsername` and changes nothing. -/
theorem c2_witness :
    register ⟨[⟨"Bob", "h", 0⟩], []⟩ "BOB" "x" 1 = .error .DuplicateUsername ∧
    regStep ⟨[⟨"Bob", "h", 0⟩], []⟩ "BOB" "x" 1 = ⟨[⟨"Bob", "h", 0⟩], []⟩ :=
  c2_duplicate_username.1 ⟨[⟨"Bob", "h", 0⟩], []⟩ "BOB" "x" 1 ⟨"Bob", "h", 0⟩
    (by decide) (by decide) (by decide) (by decide)

/-- C4 counterexample: the handler does not trim the password
(`const password = regPass.value;`), so registering with the whitespace-only
password `" "` succeeds instead of failing with `InvalidInput`. -/
theorem c4_counterexample : (register initState "a" " " 0).isOk = true := rfl

/-- C4 (amended): registration fails with `InvalidInput` precisely when the
username is empty after trimming or the password is empty as typed (the
password is not trimmed, so a whitespace-only password is accepted), and on
that failure no user record is created. -/
theorem c4_invalid_input :
    (∀ (st : ChatState) (un pw : String) (t : Nat),
      jsTrim un = "" ∨ pw = "" →
      register st un pw t = .error .InvalidInput ∧ regStep st un pw t = st) ∧
    (∀ (st : ChatState) (un pw : String) (t : Nat),
      register st un pw t = .error .InvalidInput → jsTrim un = "" ∨ pw = "") := by
  constructor
  · intro st un pw t h
    have hinv : register st un pw t = .error .InvalidInput := by
      simp only [register]
      rw [if_pos h]
    exact ⟨hinv, regStep_of_error hinv⟩
  · intro st un pw t h
    simp only [register] at h
    split_ifs at h with h1 h2
    · exact h1
    all_goals simp at h

/-- C4 witness: a whitespace-only username is rejected with `InvalidInput`
and the state is unchanged. -/
theorem c4_witness :
    register initState " " "x" 0 = .error .InvalidInput ∧
    regStep initState " " "x" 0 = initState :=
  c4_invalid_input.1 initState " " "x" 0 (by decide)

/-- C5: sending to oneself fails with `SelfMessage` and appends nothing (for
any sender name that passes the preceding empty-recipient check, which every
registered user does: reachable usernames are nonempty); consequently every
stored message in a reachable state satisfies `from ≠ to`. -/
theorem c5_self_message :
    (∀ (st : ChatState) (a tx : String) (t : Nat), a ≠ "" →
      send st a a tx t = .error .SelfMessage ∧ sendStep st a a tx t = st) ∧
    (∀ ops : List Op, ∀ m ∈ (runOps initState ops).msgs, m.«from» ≠ m.«to») ∧
    (∀ ops : List Op, ∀ u ∈ (runOps initState ops).users, u.username ≠ "") := by
  refine ⟨?_, ?_, ?_⟩
  · intro st a tx t h
    have hself : send st a a tx t = .error .SelfMessage := by
      simp only [send]
      rw [if_neg h]
      simp
    exact ⟨hself, sendStep_of_error hself⟩
  · intro ops
    exact (goodState_runOps ops goodState_init).2.2
  · intro ops
    exact (goodState_runOps ops goodState_init).2.1

/-- C5 witness: `send(alice, alice, "hi")` fails with `SelfMessage` and the
state is unchanged. -/
theorem c5_witness :
    send initState "alice" "alice" "hi" 0 = .error .SelfMessage ∧
    sendStep initState "alice" "alice" "hi" 0 = initState :=
  c5_self_message.1 initState "alice" "hi" 0 (by decide)

/-- C6: when the recipient is not a registered username under the handler's
exact comparison, nothing is ever appended to the message log, and — when the
preceding checks pass (nonempty recipient, not a self-message, nonempty
trimmed text) — the handler fails with `UnknownRecipient`. -/
theorem c6_unknown_recipient :
    (∀ (st : ChatState) (f dst tx : String) (t : Nat),
      st.users.any (fun u => u.username == dst) = false →
      sendStep st f dst tx t = st) ∧
    (∀ (st : ChatState) (f dst tx : String) (t : Nat),
      dst ≠ "" → dst ≠ f → jsTrim tx ≠ "" →
      st.users.any (fun u => u.username == dst) = false →
      send st f dst tx t = .error .UnknownRecipient) := by
  constructor
  · intro st f dst tx t h
    rcases hs : send st f dst tx t with e | ⟨st', m⟩
    · exact sendStep_of_error hs
    · obtain ⟨-, -, -, h4, -, -⟩ := send_ok_iff.mp hs
      rw [h] at h4
      cases h4
  · intro st f dst tx t h1 h2 h3 h4
    simp only [send]
    rw [if_neg h1, if_neg h2, if_neg h3, if_pos (by simp [h4])]

/-- C6 witness: sending to the unregistered `"ghost"` fails with
`UnknownRecipient` and the state is unchanged. -/
theorem c6_witness :
    send initState "alice" "ghost" "hi" 0 = .error .UnknownRecipient ∧
    sendStep initState "alice" "ghost" "hi" 0 = initState :=
  ⟨c6_unknown_recipient.2 initState "alice" "ghost" "hi" 0 (by decide) (by decide)
      (by decide) (by decide),
    c6_unknown_recipient.1 initState "alice" "ghost" "hi" 0 (by decide)⟩

/-- C7: the persisted session round-trips across a restart. Saving the login
handler's session object `{username: U}` and reloading yields a value whose
`username` property is `U`; saving `null` (logout) removes the key, and a
fresh load then yields JSON `null` (no user); an absent or malformed
(unparseable) session slot also loads as `null`, identically to no session
and never as an error (`loadCurrentUser` is total). -/
theorem c7_session_roundtrip :
    (∀ (st : StoreState) (u : String),
      loadCurrentUser (saveCurrentUser (encodeCurrentUser u) st) = encodeCurrentUser u ∧
      jUsername (loadCurrentUser (saveCurrentUser (encodeCurrentUser u) st)) = some u) ∧
    (∀ st : StoreState,
      loadCurrentUser (saveCurrentUser .jnull st) = .jnull ∧
      (saveCurrentUser .jnull st).sessionRaw = none) ∧
    (∀ st : StoreState, st.sessionRaw = none → loadCurrentUser st = .jnull) ∧
    (∀ st : StoreState, st.sessionRaw = some none → loadCurrentUser st = .jnull) := by
  refine ⟨?_, ?_, ?_, ?_⟩
  · intro st u
    constructor
    · rfl
    · rfl
  · intro st
    exact ⟨rfl, rfl⟩
  · intro st h
    simp [loadCurrentUser, h]
  · intro st h
    simp [loadCurrentUser, h]

/-- C7 witness: the round trips at a concrete store and username. -/
theorem c7_witness :
    jUsername (loadCurrentUser (saveCurrentUser (encodeCurrentUser "alice")
      ⟨none, none, none⟩)) = some "alice" ∧
    loadCurrentUser ⟨none, none, none⟩ = .jnull ∧
    loadCurrentUser ⟨none, none, some none⟩ = .jnull :=
  ⟨(c7_session_roundtrip.1 ⟨none, none, none⟩ "alice").2,
    c7_session_roundtrip.2.2.1 ⟨none, none, none⟩ rfl,
    c7_session_roundtrip.2.2.2 ⟨none, none, some none⟩ rfl⟩

/-- C9 counterexample: a stored value that parses as JSON but is not an array
(here the number `5`) is returned as-is by `loadUsers`, so the load does not
always return a sequence. -/
theorem c9_counterexample :
    isJArr (loadUsers ⟨some (some (.jnum 5)), none, none⟩) = false := rfl

/-- C9 (amended): loading a collection returns the parsed stored value when
the stored text parses (a sequence whenever that value is an array — in
particular whenever it was written by `saveUsers`/`saveMessages`), and the
empty array when the key is absent or the text is unparseable; a parse
failure is never surfaced (the loaders are total functions). A stored value
that parses to a non-array is returned unchanged, not coerced to a sequence. -/
theorem c9_load_fail_soft :
    (∀ st : StoreState, st.usersRaw = none → loadUsers st = .jarr []) ∧
    (∀ st : StoreState, st.usersRaw = some none → loadUsers st = .jarr []) ∧
    (∀ (st : StoreState) (v : JValue), st.usersRaw = some (some v) → loadUsers st = v) ∧
    (∀ st : StoreState, st.msgsRaw = none → loadMessages st = .jarr []) ∧
    (∀ st : StoreState, st.msgsRaw = some none → loadMessages st = .jarr []) ∧
    (∀ (st : StoreState) (v : JValue), st.msgsRaw = some (some v) → loadMessages st = v) := by
  refine ⟨?_, ?_, ?_, ?_, ?_, ?_⟩ <;> intro st
  · intro h; simp [loadUsers, h]
  · intro h; simp [loadUsers, h]
  · intro v h; simp [loadUsers, h]
  · intro h; simp [loadMessages, h]
  · intro h; simp [loadMessages, h]
  · intro v h; simp [loadMessages, h]

/-- C9 witness: the three load outcomes at concrete stores. -/
theorem c9_witness :
    loadUsers ⟨none, none, none⟩ = .jarr [] ∧
    loadUsers ⟨some none, none, none⟩ = .jarr [] ∧
    loadMessages ⟨none, some (some (.jarr [.jnull])), none⟩ = .jarr [.jnull] :=
  ⟨c9_load_fail_soft.1 ⟨none, none, none⟩ rfl,
    c9_load_fail_soft.2.1 ⟨some none, none, none⟩ rfl,
    c9_load_fail_soft.2.2.2.2.2 ⟨none, some (some (.jarr [.jnull])), none⟩ (.jarr [.jnull]) rfl⟩

set_option maxRecDepth 40000 in
/-- C10: the recipient check of the send handler compares usernames exactly,
unlike registration and authentication which compare case-insensitively: with
`"Alice"` registered, sending to `"alice"` fails with `UnknownRecipient`,
while registering `"alice"` fails with `DuplicateUsername` and authenticating
as `"alice"` finds the record (it fails with `WrongPassword`, not
`UserNotFound`). -/
theorem c10_recipient_case_sensitive :
    send c10state "Bob" "alice" "hi" 0 = .error .UnknownRecipient ∧
    register c10state "alice" "pw" 0 = .error .DuplicateUsername ∧
    authenticate c10state "alice" "pw" = .error .WrongPassword := by
  refine ⟨rfl, rfl, ?_⟩
  decide

/-- Characterization of a login attempt whose case-insensitive lookup finds
the record `u`. -/
theorem authenticate_found {st : ChatState} {un pw : String} {u : User}
    (h1 : jsTrim un ≠ "") (h2 : pw ≠ "")
    (hfind : st.users.find?
      (fun x => jsToLower x.username == jsToLower (jsTrim un)) = some u) :
    authenticate st un pw =
      if hashPassword pw ≠ u.passwordHash then .error .WrongPassword else .ok u := by
  simp only [authenticate]
  rw [if_neg (not_or.mpr ⟨h1, h2⟩), hfind]

/-- C1: for inputs passing the handler's empty-input check, authentication
fails with `UserNotFound` when no case-insensitive username match exists;
when the first case-insensitive match is `u`, it fails with `WrongPassword`
exactly when the digest of the supplied password differs from the stored
`passwordHash`, and otherwise succeeds returning the stored record `u`; and a
successful `register(username, password)` is immediately honoured:
authenticating with the same inputs over the resulting state succeeds and
returns the record that registration stored (so success holds iff the
matched stored record still carries the digest of the supplied password). -/
theorem c1_authenticate :
    (∀ (st : ChatState) (un pw : String),
      jsTrim un ≠ "" → pw ≠ "" →
      ((∀ u ∈ st.users, jsToLower u.username ≠ jsToLower (jsTrim un)) →
        authenticate st un pw = .error .UserNotFound) ∧
      (∀ u : User,
        st.users.find? (fun x => jsToLower x.username == jsToLower (jsTrim un)) = some u →
        (hashPassword pw ≠ u.passwordHash →
          authenticate st un pw = .error .WrongPassword) ∧
        (hashPassword pw = u.passwordHash →
          authenticate st un pw = .ok u))) ∧
    (∀ (st st' : ChatState) (un pw : String) (t : Nat) (r : User),
      register st un pw t = .ok (st', r) →
      authenticate st' un pw = .ok r) := by
  constructor
  · intro st un pw h1 h2
    constructor
    · intro h
      have hfind : st.users.find?
          (fun x => jsToLower x.username == jsToLower (jsTrim un)) = none :=
        List.find?_eq_none.mpr (fun u hu => by simpa using h u hu)
      simp only [authenticate]
      rw [if_neg (not_or.mpr ⟨h1, h2⟩), hfind]
    · intro u hfind
      constructor
      · intro hneq
        rw [authenticate_found h1 h2 hfind, if_pos hneq]
      · intro heq
        rw [authenticate_found h1 h2 hfind, if_neg (fun hc => hc heq)]
  · intro st st' un pw t r hreg
    obtain ⟨h1, h2, h3, hr, hst⟩ := register_ok_iff.mp hreg
    subst hst
    have h0 : st.users.find?
        (fun x => jsToLower x.username == jsToLower (jsTrim un)) = none :=
      List.find?_eq_none.mpr (fun u hu => by simpa using List.any_eq_false.mp h3 u hu)
    have hfind : ({ st with users := st.users ++ [r] } : ChatState).users.find?
        (fun x => jsToLower x.username == jsToLower (jsTrim un)) = some r := by
      show (st.users ++ [r]).find? _ = some r
      rw [List.find?_append, h0]
      subst hr
      simp [List.find?]
    rw [authenticate_found h1 h2 hfind, if_neg (fun hc => hc (by rw [hr]))]

/-- C1 witness: registering `alice` then authenticating with the same
password succeeds and returns the stored record. -/
theorem c1_witness :
    authenticate ⟨[⟨"alice", hashPassword "pw", 0⟩], []⟩ "alice" "pw" =
      .ok ⟨"alice", hashPassword "pw", 0⟩ :=
  c1_authenticate.2 initState ⟨[⟨"alice", hashPassword "pw", 0⟩], []⟩ "alice" "pw" 0
    ⟨"alice", hashPassword "pw", 0⟩ rfl

/-- Transitivity of the timestamp comparator. -/
theorem msgLE_trans : ∀ (a b c : Message), msgLE a b → msgLE b c → msgLE a c := by
  intro a b c h1 h2
  simp only [msgLE, decide_eq_true_eq] at *
  omega

/-- Totality of the timestamp comparator. -/
theorem msgLE_total : ∀ (a b : Message), msgLE a b || msgLE b a := by
  intro a b
  simp only [msgLE, Bool.or_eq_true, decide_eq_true_eq]
  omega

/-- C3: the conversation view returns exactly (as a multiset) the messages
whose `{from,to}` pair is `{userA,userB}` in either direction, in ascending
timestamp order; messages with equal timestamps keep their relative store
order (stable sort: for each timestamp, the equal-timestamp subsequence of
the output equals that of the filtered input); and swapping the two
participants yields the identical sequence. -/
theorem c3_conversation :
    (∀ (msgs : List Message) (a b : String),
      (conversation msgs a b).Perm (msgs.filter (convFilter a b))) ∧
    (∀ (msgs : List Message) (a b : String),
      (conversation msgs a b).Pairwise (fun m1 m2 => m1.ts ≤ m2.ts)) ∧
    (∀ (msgs : List Message) (a b : String) (k : Nat),
      (conversation msgs a b).filter (fun m => m.ts == k) =
        (msgs.filter (convFilter a b)).filter (fun m => m.ts == k)) ∧
    (∀ (msgs : List Message) (a b : String),
      conversation msgs a b = conversation msgs b a) := by
  refine ⟨?_, ?_, ?_, ?_⟩
  · intro msgs a b
    exact List.mergeSort_perm _ _
  · intro msgs a b
    exact (List.sorted_mergeSort msgLE_trans msgLE_total _).imp
      (fun h => by simpa [msgLE] using h)
  · intro msgs a b k
    simp only [conversation]
    set l := msgs.filter (convFilter a b) with hl
    set c := l.filter (fun m => m.ts == k) with hc
    have hck : ∀ m ∈ c, m.ts = k := by
      intro m hm
      have := (List.mem_filter.mp hm).2
      simpa using this
    have hc_sub : List.Sublist c (List.mergeSort l msgLE) := by
      apply List.sublist_mergeSort msgLE_trans msgLE_total ?_ (List.filter_sublist l)
      apply List.pairwise_of_forall_mem_list
      intro x hx y hy
      have hxk := hck x hx
      have hyk := hck y hy
      simp only [msgLE, decide_eq_true_eq]
      omega
    have hperm : List.Perm ((List.mergeSort l msgLE).filter (fun m => m.ts == k)) c :=
      (List.mergeSort_perm l msgLE).filter _
    have hsub2 : List.Sublist c ((List.mergeSort l msgLE).filter (fun m => m.ts == k)) := by
      have heq : c.filter (fun m => m.ts == k) = c :=
        List.filter_eq_self.mpr (fun m hm => (List.mem_filter.mp hm).2)
      rw [← heq]
      exact hc_sub.filter _
    exact (hsub2.eq_of_length hperm.length_eq.symm).symm
  · intro msgs a b
    have hflt : msgs.filter (convFilter a b) = msgs.filter (convFilter b a) :=
      List.filter_congr (fun m _ => by simp only [convFilter]; exact Bool.or_comm _ _)
    simp only [conversation, hflt]

/-- Length of a left fold of string appends. -/
theorem foldl_append_length (l : List String) (a : String) :
    (l.foldl (fun r s => r ++ s) a).length = a.length + (l.map String.length).sum := by
  induction l generalizing a with
  | nil => simp
  | cons x xs ih => simp [List.foldl_cons, ih]; omega

/-- Character data of a left fold of string appends. -/
theorem foldl_append_data (l : List String) (a : String) :
    (l.foldl (fun r s => r ++ s) a).data = a.data ++ (l.map String.data).flatten := by
  induction l generalizing a with
  | nil => simp
  | cons x xs ih => simp [List.foldl_cons, ih]

/-- Length of a joined string is the sum of the lengths. -/
theorem string_join_length (l : List String) :
    (String.join l).length = (l.map String.length).sum := by
  simpa [String.join] using foldl_append_length l ""

/-- Character data of a joined string is the concatenation of the data. -/
theorem string_join_data (l : List String) :
    (String.join l).data = (l.map String.data).flatten := by
  simpa [String.join] using foldl_append_data l ""

/-- Base-16 rendering of a small value is the single digit. -/
theorem natToHex_lt16 {b : Nat} (h : b < 16) : natToHex b = String.mk [hexDigit b] := by
  simp [natToHex, natToHexAux, h]

/-- Base-16 rendering of a two-digit byte. -/
theorem natToHex_two_digits {b : Nat} (h1 : 16 ≤ b) (h2 : b < 256) :
    natToHex b = String.mk [hexDigit (b / 16), hexDigit (b % 16)] := by
  obtain ⟨m, rfl⟩ : ∃ m, b = m + 1 := ⟨b - 1, by omega⟩
  simp only [natToHex]
  rw [natToHexAux, if_neg (by omega), natToHexAux, if_pos (by omega)]

/-- The rendering of one digest byte has exactly two characters. -/
theorem hexByte_length {b : Nat} (h : b < 256) : (padStart2 (natToHex b)).length = 2 := by
  by_cases h16 : b < 16
  · rw [natToHex_lt16 h16]
    simp [padStart2, String.length]
  · rw [natToHex_two_digits (by omega) h]
    simp [padStart2, String.length]

/-- One hex digit character is one of the sixteen lowercase digits. -/
theorem hexDigit_mem {n : Nat} (h : n < 16) : hexDigit n ∈ ("0123456789abcdef").data := by
  interval_cases n <;> decide

/-- All characters of the rendering of one digest byte are lowercase hex digits. -/
theorem hexByte_chars {b : Nat} (h : b < 256) :
    ∀ c ∈ (padStart2 (natToHex b)).data, c ∈ ("0123456789abcdef").data := by
  intro c hc
  by_cases h16 : b < 16
  · rw [natToHex_lt16 h16] at hc
    simp [padStart2, String.length] at hc
    rcases hc with rfl | rfl
    · decide
    · exact hexDigit_mem h16
  · rw [natToHex_two_digits (by omega) h] at hc
    simp [padStart2, String.length] at hc
    rcases hc with rfl | rfl
    · exact hexDigit_mem (by omega)
    · exact hexDigit_mem (by omega)

/-- The SHA-256 digest always has 32 bytes. -/
theorem sha256_length (msg : List Nat) : (sha256 msg).length = 32 := by
  simp [sha256]

/-- Every SHA-256 digest byte is below 256. -/
theorem sha256_bytes_lt (msg : List Nat) : ∀ b ∈ sha256 msg, b < 256 := by
  intro b hb
  have h255 : ∀ w : Nat, w &&& 255 < 256 := fun w => Nat.lt_succ_of_le Nat.and_le_right
  simp [sha256] at hb
  rcases hb with rfl|rfl|rfl|rfl|rfl|rfl|rfl|rfl|rfl|rfl|rfl|rfl|rfl|rfl|rfl|rfl|rfl|rfl|rfl|rfl|rfl|rfl|rfl|rfl|rfl|rfl|rfl|rfl|rfl|rfl|rfl|rfl <;> exact h255 _

/-- Sum of the constant list of twos. -/
theorem sum_map_two (l : List Nat) : (l.map (fun _ => 2)).sum = 2 * l.length := by
  induction l with
  | nil => simp
  | cons x xs ih => simp [ih]; omega

set_option maxRecDepth 40000 in
/-- C8: the password digest is SHA-256 of the UTF-8 encoding of the password,
rendered as lowercase hexadecimal of exactly 64 characters (each digest byte
zero-padded to two hex digits); in particular the digest of the empty string
is the standard test vector. -/
theorem c8_digest :
    hashPassword "" = "e3b0c44298fc1c149afbf4c8996fb92427ae41e4649b934ca495991b7852b855" ∧
    (∀ p : String, (hashPassword p).length = 64) ∧
    (∀ p : String,
      (hashPassword p).data.all (fun c => ("0123456789abcdef").data.contains c) = true) := by
  refine ⟨by decide, ?_, ?_⟩
  · intro p
    rw [hashPassword, string_join_length, List.map_map]
    have hmap : (sha256 (utf8Encode p)).map (String.length ∘ fun b => padStart2 (natToHex b)) =
        (sha256 (utf8Encode p)).map (fun _ => 2) :=
      List.map_congr_left (fun b hb => hexByte_length (sha256_bytes_lt _ b hb))
    rw [hmap, sum_map_two, sha256_length]
  · intro p
    rw [List.all_eq_true]
    intro c hc
    rw [hashPassword, string_join_data, List.map_map] at hc
    rcases List.mem_flatten.mp hc with ⟨cs, hcs, hmem⟩
    rcases List.mem_map.mp hcs with ⟨b, hb, rfl⟩
    have := hexByte_chars (sha256_bytes_lt _ b hb) c hmem
    exact List.elem_iff.mpr this
